import Mathlib

/-!
Shallow embedding of the adaptive UDP frame client
(`src/client/udp_client.py`) and the prediction handler
(`src/utils/prediction_handler.py`).

External libraries are modelled as oracles:
* `cv2.imencode` / `cv2.resize` — the compressed output of the working
  frame depends only on how many downscale steps have been applied and on
  the JPEG quality, so the codec is a function `Codec : Nat → Int → Option Bytes`
  (`comp k q` = bytes produced at outer-loop step `k` and quality `q`;
  `none` models an exception inside `_compress_frame`, which that method
  catches and turns into `(False, b"")`).
* `socket.sendto` may raise; whether it does is the `sendOk : Bool` oracle.
* `socket.recvfrom` is modelled by an `arrival : Option Bytes` oracle
  (the datagram available to be read, if any) together with the standard
  OS semantics of a blocking socket: with no pending datagram, a socket
  with a configured timeout raises `socket.timeout`, while a blocking
  socket with no timeout never returns.
* `json.loads` is a `loads : Bytes → Option PredDoc` oracle (`none`
  models `json.JSONDecodeError`).
* `time.time()` differences appear as the `elapsed` parameter, and the
  product `frame.shape[0]*frame.shape[1]*frame.shape[2]` as `origSize`.

Fields of `UDPClient` that cannot affect any property below are omitted
from the state: `host`/`port` (only forwarded to `sendto`), `logger`,
`last_metrics_time` (only throttles `_log_metrics`, which writes nothing
back), and `target_size` (a single unconditional resize before the search,
absorbed into the codec oracle).  Python ints are `Int`/`Nat`, Python
floats are modelled as exact rationals `ℚ`.
-/

namespace RoboflowUDP

/-- A byte string, abstracted as a list of byte values. -/
abbrev Bytes := List Nat

/-- Codec oracle: `comp k q` is the result of `_compress_frame` on the
working frame after `k` downscale steps of the outer loop, at JPEG
quality `q`; `none` models a compression exception (caught inside
`_compress_frame`, which then returns `(False, b"")`). -/
abbrev Codec := Nat → Int → Option Bytes

/-- The outer-loop guard `scale_factor > 0.3` after `k` downscale steps:
`scale_factor` is `0.8 ^ k`, and `(4/5)^k > 3/10 ↔ 3 * 5^k < 10 * 4^k`. -/
def scaleOK (k : Nat) : Bool := 3 * 5 ^ k < 10 * 4 ^ k

/-- How the inner `while current_quality >= self.min_jpeg_quality` loop of
`send_frame` exits, together with the values the Python locals `success`
and `data` hold at that point:
* `fit data` — a compression fit the buffer (`success = True`, the
  payload is sent);
* `staleSuccess data` — the quality range was exhausted with every
  payload oversized; `success, data = self._compress_frame(...)` left
  `success = True` and `data` = the last (oversized!) compression, so the
  outer loop breaks and `data` is sent;
* `failed` — `_compress_frame` returned `False` (`success = False`), the
  outer loop downscales and retries;
* `noIter` — the loop guard failed immediately (`current_quality` already
  below minimum); `success`/`data` keep their previous values. -/
inductive InnerExit : Type
  | fit (data : Bytes)
  | staleSuccess (data : Bytes)
  | failed
  | noIter
  deriving DecidableEq

/-- The inner quality loop of `send_frame` (lines 94–105), returning the
list of quality values actually tried (in order) and the exit state. -/
def innerLoop (comp : Int → Option Bytes) (buf : Nat) (minQ : Int) (q : Int) :
    List Int × InnerExit :=
  if q < minQ then ([], InnerExit.noIter)
  else
    match comp q with
    | none => ([q], InnerExit.failed)
    | some data =>
      if data.length ≤ buf then ([q], InnerExit.fit data)
      else
        match innerLoop comp buf minQ (q - 5) with
        | (qs, InnerExit.noIter) => (q :: qs, InnerExit.staleSuccess data)
        | (qs, e) => (q :: qs, e)
termination_by (q + 5 - minQ).toNat
decreasing_by
  simp_wf
  omega

/-- `scaleOK` fails from step 6 on: `10 * 4 ^ (6 + m) < 3 * 5 ^ (6 + m)`. -/
theorem ten_four_lt_three_five (m : Nat) : 10 * 4 ^ (6 + m) < 3 * 5 ^ (6 + m) := by
  induction m with
  | zero => norm_num
  | succ n ih =>
    have h4 : 10 * 4 ^ (6 + (n + 1)) = 4 * (10 * 4 ^ (6 + n)) := by ring
    have h5 : 3 * 5 ^ (6 + (n + 1)) = 5 * (3 * 5 ^ (6 + n)) := by ring
    have hpos : 0 < 3 * 5 ^ (6 + n) := by positivity
    calc 10 * 4 ^ (6 + (n + 1)) = 4 * (10 * 4 ^ (6 + n)) := h4
      _ < 4 * (3 * 5 ^ (6 + n)) := by omega
      _ ≤ 5 * (3 * 5 ^ (6 + n)) := Nat.mul_le_mul_right _ (by norm_num)
      _ = 3 * 5 ^ (6 + (n + 1)) := h5.symm

/-- The outer loop runs at most 6 times: `scaleOK k` forces `k < 6`. -/
theorem scaleOK_lt_six (k : Nat) (h : scaleOK k = true) : k < 6 := by
  by_contra hk
  have h6 : 6 + (k - 6) = k := by omega
  have := ten_four_lt_three_five (k - 6)
  rw [h6] at this
  have hlt : 3 * 5 ^ k < 10 * 4 ^ k := by
    simpa [scaleOK] using h
  omega

/-- The outer scale loop of `send_frame` (lines 92–113), indexed by the
number `k` of downscale steps already applied.  Returns the trace — for
each outer iteration, the pair of its step index and the quality values
tried — and the payload the loop hands on to `sendto` (`none` when the
loop ends with `success == False`, in which case `send_frame` returns
`False` at line 117). -/
def outerLoop (comp : Codec) (buf : Nat) (minQ q0 : Int) (k : Nat) :
    List (Nat × List Int) × Option Bytes :=
  if h : scaleOK k then
    match innerLoop (comp k) buf minQ q0 with
    | (qs, InnerExit.fit data) => ([(k, qs)], some data)
    | (qs, InnerExit.staleSuccess data) => ([(k, qs)], some data)
    | (qs, InnerExit.failed) =>
      let r := outerLoop comp buf minQ q0 (k + 1)
      ((k, qs) :: r.1, r.2)
    | (qs, InnerExit.noIter) =>
      let r := outerLoop comp buf minQ q0 (k + 1)
      ((k, qs) :: r.1, r.2)
  else ([], none)
termination_by 6 - k
decreasing_by
  all_goals
    have := scaleOK_lt_six k h
    omega

/-- The complete adaptive search of `send_frame`: quality starts at
`initial_jpeg_quality`, scale at `1.0` (zero downscale steps). -/
def encode (comp : Codec) (buf : Nat) (minQ q0 : Int) :
    List (Nat × List Int) × Option Bytes :=
  outerLoop comp buf minQ q0 0

/-- State of the socket object held by the client.  `connect` creates the
socket with `socket.socket(AF_INET, SOCK_DGRAM)` and never calls
`settimeout` or `setblocking`, so the `timeout` field — the value a
`settimeout` call would have installed — records whether a receive
timeout is configured (`none` = Python default: blocking, no timeout). -/
structure SocketState : Type where
  timeout : Option ℚ
  deriving DecidableEq

/-- The mutable state of `UDPClient` (configuration fields plus the
monitoring state initialised in `__init__`, lines 29–44).  `socket = none`
models `self.socket is None`. -/
structure UDPClient : Type where
  buffer_size : Nat
  initial_jpeg_quality : Int
  min_jpeg_quality : Int
  socket : Option SocketState
  frame_sizes : List Nat
  compression_rates : List ℚ
  frame_times : List ℚ
  frames_sent : Nat
  bytes_sent : Nat
  deriving DecidableEq

/-- `UDPClient.__init__`: fresh client, not yet connected, all monitoring
state empty / zero. -/
def mkUDPClient (bufferSize : Nat) (q0 minQ : Int) : UDPClient :=
  { buffer_size := bufferSize
    initial_jpeg_quality := q0
    min_jpeg_quality := minQ
    socket := none
    frame_sizes := []
    compression_rates := []
    frame_times := []
    frames_sent := 0
    bytes_sent := 0 }

/-- `connect` (lines 46–53): creates a UDP socket — blocking, with no
timeout configured, since nothing in the class ever calls `settimeout` —
and returns `True`; `ok = false` models `socket.socket` raising, in which
case the handler logs and returns `False` with the state unchanged. -/
def connect (ok : Bool) (c : UDPClient) : Bool × UDPClient :=
  if ok then (true, { c with socket := some { timeout := none } }) else (false, c)

/-- `close` (lines 194–198): release the socket if present. -/
def close (c : UDPClient) : UDPClient :=
  { c with socket := none }

/-- `collections.deque(maxlen=cap).append x`: append on the right, evict
from the left whatever exceeds the capacity. -/
def dequeAppend (cap : Nat) (xs : List α) (x : α) : List α :=
  (xs ++ [x]).drop ((xs ++ [x]).length - cap)

/-- One telemetry sample, as produced by a successful send (lines 122–128):
payload size in bytes, `len(data) / original_size`, and the elapsed
processing time. -/
structure MetricsSample : Type where
  encodedSize : Nat
  ratio : ℚ
  latency : ℚ
  deriving DecidableEq

/-- The metrics update of `send_frame` lines 124–128: append the sample to
the three `deque(maxlen=100)` ring buffers and bump the two lifetime
counters. -/
def recordSample (c : UDPClient) (s : MetricsSample) : UDPClient :=
  { c with
    frame_sizes := dequeAppend 100 c.frame_sizes s.encodedSize
    compression_rates := dequeAppend 100 c.compression_rates s.ratio
    frame_times := dequeAppend 100 c.frame_times s.latency
    frames_sent := c.frames_sent + 1
    bytes_sent := c.bytes_sent + s.encodedSize }

/-- Outcome of one `send_frame` call.  The Python method returns only a
`bool`; the constructors record which exit was taken and what datagram,
if any, was passed to `self.socket.sendto`:
* `ok data` — `sendto` was called with `data` and the method returned `True`;
* `notConnected` — early `False` return at line 76 (`self.socket is None`);
* `payloadTooLarge` — `False` return at line 117 (search ended with
  `success == False`);
* `sendError data` — `sendto` was called with `data` but raised, so the
  `except` block returned `False` (metrics code never ran). -/
inductive SendOutcome : Type
  | ok (data : Bytes)
  | notConnected
  | payloadTooLarge
  | sendError (data : Bytes)
  deriving DecidableEq

/-- The datagram a `send_frame` outcome handed to `self.socket.sendto`,
if any. -/
def handedToTransport : SendOutcome → Option Bytes
  | SendOutcome.ok data => some data
  | SendOutcome.sendError data => some data
  | SendOutcome.notConnected => none
  | SendOutcome.payloadTooLarge => none

/-- `send_frame` (lines 72–139).  `comp` is the codec oracle for this
frame (already accounting for the optional `target_size` resize at line
85), `sendOk` tells whether `sendto` succeeds, `origSize` is the raw
frame's byte count and `elapsed` the measured processing time. -/
def send_frame (comp : Codec) (sendOk : Bool) (origSize : Nat) (elapsed : ℚ)
    (c : UDPClient) : SendOutcome × UDPClient :=
  match c.socket with
  | none => (SendOutcome.notConnected, c)
  | some _ =>
    match (encode comp c.buffer_size c.min_jpeg_quality c.initial_jpeg_quality).2 with
    | none => (SendOutcome.payloadTooLarge, c)
    | some data =>
      if sendOk then
        (SendOutcome.ok data,
          recordSample c
            { encodedSize := data.length
              ratio := (data.length : ℚ) / (origSize : ℚ)
              latency := elapsed })
      else (SendOutcome.sendError data, c)

/-- The dictionary returned by `get_metrics` (lines 170–177). -/
structure MetricsSnapshot : Type where
  avg_frame_size : ℚ
  avg_compression : ℚ
  avg_process_time : ℚ
  current_quality : Int
  frames_sent : Nat
  bytes_sent : Nat
  deriving DecidableEq

/-- `get_metrics` (lines 165–177): the empty dict when `self.frame_times`
is empty, otherwise arithmetic means over the ring buffers plus the two
lifetime counters and `self.initial_jpeg_quality`. -/
def get_metrics (c : UDPClient) : Option MetricsSnapshot :=
  if c.frame_times.isEmpty then none
  else
    some
      { avg_frame_size := ((c.frame_sizes.sum : ℚ)) / (c.frame_sizes.length : ℚ)
        avg_compression := c.compression_rates.sum / (c.compression_rates.length : ℚ)
        avg_process_time := c.frame_times.sum / (c.frame_times.length : ℚ)
        current_quality := c.initial_jpeg_quality
        frames_sent := c.frames_sent
        bytes_sent := c.bytes_sent }

/-- Behaviour of one `receive_prediction` call (lines 179–192).
`returns s d` means the call comes back with the pair `(s, d)`; `blocks`
means `recvfrom` never returns (blocking socket, no timeout configured,
no datagram pending), so no pair is ever produced. -/
inductive RecvResult : Type
  | returns (success : Bool) (data : Option Bytes)
  | blocks
  deriving DecidableEq

/-- `receive_prediction` (lines 179–192), with `arrival` the datagram
available to be read, if any.  When none is pending the OS semantics of
`recvfrom` apply: a socket with a configured timeout raises
`socket.timeout` — caught at line 187, returning `(False, None)` — while
a blocking socket with no timeout blocks indefinitely. -/
def receive_prediction (arrival : Option Bytes) (c : UDPClient) : RecvResult :=
  match c.socket with
  | none => RecvResult.returns false none
  | some s =>
    match arrival with
    | some d => RecvResult.returns true (some d)
    | none =>
      match s.timeout with
      | some _ => RecvResult.returns false none
      | none => RecvResult.blocks

/-- Fold a list of telemetry samples into the client, one successful send
at a time (the lines 124–128 effect of each send). -/
def runRecords (c : UDPClient) (ss : List MetricsSample) : UDPClient :=
  ss.foldl recordSample c

/-- The per-call inputs of one `send_frame` invocation. -/
structure SendEvent : Type where
  comp : Codec
  sendOk : Bool
  origSize : Nat
  elapsed : ℚ

/-- State reached after one `send_frame` call with the given inputs. -/
def stepClient (c : UDPClient) (e : SendEvent) : UDPClient :=
  (send_frame e.comp e.sendOk e.origSize e.elapsed c).2

/-- State reached after a sequence of `send_frame` calls. -/
def runSends (c : UDPClient) (es : List SendEvent) : UDPClient :=
  es.foldl stepClient c

/-! Model of `src/utils/prediction_handler.py`.  `json.loads` is an
oracle `loads : Bytes → Option PredDoc`; the parsed document is the
top-level JSON dictionary (the code's type hints and callers only ever
feed dictionaries), with values as a small JSON value type. -/

/-- A JSON value, with numbers as exact rationals. -/
inductive Json : Type
  | null
  | bool (b : Bool)
  | num (q : ℚ)
  | str (s : String)
  | arr (xs : List Json)
  | obj (fields : List (String × Json))

/-- A parsed top-level JSON dictionary (insertion-ordered, like Python). -/
abbrev PredDoc := List (String × Json)

/-- `key in dict` / `dict[key]`: first binding of `k`, if any. -/
def lookupKey (doc : List (String × Json)) (k : String) : Option Json :=
  (doc.find? (fun p => p.1 = k)).map (fun p => p.2)

/-- `parse_prediction` (lines 14–23): decode the bytes as JSON, returning
the empty dict `{}` when `json.loads` raises (the except blocks catch the
error, print, and return `{}`). -/
def parse_prediction (loads : Bytes → Option PredDoc) (data : Bytes) : PredDoc :=
  (loads data).getD []

/-- `draw_predictions` (lines 32–70) for an abstract frame type: return
the frame untouched when the dict is empty (falsy) or has no
`predictions` key; otherwise draw each prediction in order onto a copy of
the frame, with the per-box drawing (lines 41–68, all `cv2` calls)
abstracted as the `annotate` oracle.  Iterating a non-list `predictions`
value would raise in Python and is outside this model. -/
def draw_predictions {Frame : Type} (annotate : Frame → Json → Frame)
    (frame : Frame) (doc : PredDoc) : Frame :=
  if doc.isEmpty then frame
  else
    match lookupKey doc "predictions" with
    | none => frame
    | some (Json.arr preds) => preds.foldl annotate frame
    | some _ => frame

/-- `str(v)` as used by the f-string at line 84 when the `class` value is
not a string (normal payloads always use strings here). -/
def jsonDisplay : Json → String
  | Json.null => "None"
  | Json.bool true => "True"
  | Json.bool false => "False"
  | Json.num q => toString q
  | Json.str s => s
  | Json.arr _ => "<list>"
  | Json.obj _ => "<dict>"

/-- `pred.get('class', 'unknown')` at line 80, rendered to the string the
summary prints. -/
def predClass : Json → String
  | Json.obj fs =>
    match lookupKey fs "class" with
    | some v => jsonDisplay v
    | none => "unknown"
  | _ => "unknown"

/-- `classes[class_name] = classes.get(class_name, 0) + 1` on an
insertion-ordered dict. -/
def bumpClass (cs : List (String × Nat)) (name : String) : List (String × Nat) :=
  if cs.any (fun p => p.1 = name) then
    cs.map (fun p => if p.1 = name then (p.1, p.2 + 1) else p)
  else cs ++ [(name, 1)]

/-- `get_prediction_summary` (lines 72–85): `"No predictions"` when the
dict is empty or lacks the `predictions` key, otherwise a count of
objects per class.  The final catch-all branch (a `predictions` value
that is not a list, on which Python `len`/iteration would raise) is
outside the behaviour any claim depends on. -/
def get_prediction_summary (doc : PredDoc) : String :=
  if doc.isEmpty then "No predictions"
  else
    match lookupKey doc "predictions" with
    | none => "No predictions"
    | some (Json.arr preds) =>
      let classes := preds.foldl (fun cs p => bumpClass cs (predClass p)) []
      "Found " ++ toString preds.length ++ " objects: " ++
        String.intercalate ", "
          (classes.map (fun p => toString p.2 ++ " " ++ p.1))
    | some _ => "Found ? objects: "

/-! Concrete inputs used by the bug demonstrations and witnesses. -/

/-- A codec for which every compression attempt, at every scale step and
quality, succeeds and yields a 20-byte payload. -/
def oversizedCodec : Codec := fun _ _ => some (List.replicate 20 0)

/-- Same, with payload bytes `1` (a distinct concrete input). -/
def oversizedCodecB : Codec := fun _ _ => some (List.replicate 20 1)

/-- A codec whose first attempt already fits any buffer of size ≥ 2. -/
def fitCodec : Codec := fun _ _ => some [7, 7]

/-- A connected client with `buffer_size = 10`, qualities 60 down to 30. -/
def connClient : UDPClient :=
  { mkUDPClient 10 60 30 with socket := some { timeout := none } }

/-- A connected client with `buffer_size = 12`, qualities 60 down to 30. -/
def connClientB : UDPClient :=
  { mkUDPClient 12 60 30 with socket := some { timeout := none } }

/-! ## Theorems -/

/-- C7: bytes that are not valid JSON parse to the empty dict, on which
drawing is the identity and the summary is the no-predictions message;
likewise any parsed document without a `predictions` key is drawn as the
identity and summarised as no predictions, with no exception escaping
(all the functions involved are total). -/
theorem malformed_prediction_handling {Frame : Type}
    (loads : Bytes → Option PredDoc) (data : Bytes)
    (annotate : Frame → Json → Frame) (frame : Frame) (doc : PredDoc) :
    (loads data = none →
      parse_prediction loads data = [] ∧
      draw_predictions annotate frame (parse_prediction loads data) = frame ∧
      get_prediction_summary (parse_prediction loads data) = "No predictions") ∧
    (lookupKey doc "predictions" = none →
      draw_predictions annotate frame doc = frame ∧
      get_prediction_summary doc = "No predictions") := by
  constructor
  · intro h
    refine ⟨by simp [parse_prediction, h], ?_, ?_⟩
    · simp [parse_prediction, h, draw_predictions]
    · simp [parse_prediction, h, get_prediction_summary]
  · intro h
    constructor
    · unfold draw_predictions
      split
      · rfl
      · rw [h]
    · unfold get_prediction_summary
      split
      · rfl
      · rw [h]

/-- C7 witness: the theorem applied to the concrete inputs `loads` that
always fails (as on `b"not json"`) and the one-entry document without a
`predictions` key. -/
theorem malformed_prediction_handling_witness :
    (parse_prediction (fun _ => none) [110, 111] = ([] : PredDoc)) ∧
    get_prediction_summary [("a", Json.null)] = "No predictions" :=
  ⟨((malformed_prediction_handling (fun _ => none) [110, 111]
      (fun (f : Nat) _ => f) 0 [("a", Json.null)]).1 rfl).1,
   ((malformed_prediction_handling (fun _ => none) [110, 111]
      (fun (f : Nat) _ => f) 0 [("a", Json.null)]).2 rfl).2⟩

/-- C8: `close` on an unconnected client is a no-op, and after `close`
a `send_frame` returns the not-connected failure without touching the
state and `receive_prediction` returns `(False, None)`, neither raising
(both are total functions). -/
theorem close_noop_and_not_connected (c : UDPClient) (comp : Codec)
    (sendOk : Bool) (origSize : Nat) (elapsed : ℚ) (arrival : Option Bytes) :
    (c.socket = none → close c = c) ∧
    send_frame comp sendOk origSize elapsed (close c) =
      (SendOutcome.notConnected, close c) ∧
    receive_prediction arrival (close c) = RecvResult.returns false none := by
  refine ⟨fun h => ?_, ?_, ?_⟩
  · cases c
    simp_all [close]
  · simp [send_frame, close]
  · simp [receive_prediction, close]

/-- C8 witness: the theorem applied to a fresh (unconnected) client and
to the connected client, at concrete send/receive inputs. -/
theorem close_noop_and_not_connected_witness :
    close (mkUDPClient 10 60 30) = mkUDPClient 10 60 30 ∧
    send_frame fitCodec true 1 0 (close connClient) =
      (SendOutcome.notConnected, close connClient) ∧
    receive_prediction (some [1]) (close connClient) =
      RecvResult.returns false none :=
  ⟨(close_noop_and_not_connected (mkUDPClient 10 60 30) fitCodec true 1 0
      none).1 rfl,
   (close_noop_and_not_connected connClient fitCodec true 1 0 (some [1])).2.1,
   (close_noop_and_not_connected connClient fitCodec true 1 0 (some [1])).2.2⟩

/-- C9 (bug demonstration): `connect` creates the socket with no timeout
configured — nothing in `UDPClient` ever calls `settimeout` or
`setblocking` — so when no datagram is pending, `recvfrom` blocks
indefinitely instead of raising the `socket.timeout` that the handler at
line 187 is waiting for; `receive_prediction` never returns at all,
contradicting the claimed bounded-timeout policy. -/
theorem receive_blocks_without_timeout (c : UDPClient) :
    receive_prediction none (connect true c).2 = RecvResult.blocks := by
  simp [receive_prediction, connect]

/-- C10: a `send_frame` call that does not return `ok` — not connected,
search exhausted, or `sendto` raised — leaves every telemetry field
(the three ring buffers and the two lifetime counters) unchanged. -/
theorem send_failure_leaves_telemetry_unchanged (comp : Codec)
    (sendOk : Bool) (origSize : Nat) (elapsed : ℚ) (c : UDPClient)
    (r : SendOutcome) (c2 : UDPClient)
    (hrun : send_frame comp sendOk origSize elapsed c = (r, c2))
    (hfail : ∀ d, r ≠ SendOutcome.ok d) :
    c2.frame_sizes = c.frame_sizes ∧
    c2.compression_rates = c.compression_rates ∧
    c2.frame_times = c.frame_times ∧
    c2.frames_sent = c.frames_sent ∧
    c2.bytes_sent = c.bytes_sent := by
  suffices h : c2 = c by
    subst h
    exact ⟨rfl, rfl, rfl, rfl, rfl⟩
  unfold send_frame at hrun
  split at hrun
  · rw [Prod.mk.injEq] at hrun
    exact hrun.2.symm
  · split at hrun
    · rw [Prod.mk.injEq] at hrun
      exact hrun.2.symm
    · split at hrun
      · rw [Prod.mk.injEq] at hrun
        exact absurd hrun.1.symm (hfail _)
      · rw [Prod.mk.injEq] at hrun
        exact hrun.2.symm

/-- C10 witness: a send on an unconnected client fails and changes no
telemetry field. -/
theorem send_failure_leaves_telemetry_unchanged_witness :
    (mkUDPClient 10 60 30).frame_sizes = (mkUDPClient 10 60 30).frame_sizes ∧
    (mkUDPClient 10 60 30).compression_rates =
      (mkUDPClient 10 60 30).compression_rates ∧
    (mkUDPClient 10 60 30).frame_times = (mkUDPClient 10 60 30).frame_times ∧
    (mkUDPClient 10 60 30).frames_sent = (mkUDPClient 10 60 30).frames_sent ∧
    (mkUDPClient 10 60 30).bytes_sent = (mkUDPClient 10 60 30).bytes_sent :=
  send_failure_leaves_telemetry_unchanged fitCodec true 1 0
    (mkUDPClient 10 60 30) SendOutcome.notConnected (mkUDPClient 10 60 30)
    rfl (by intro d h; cases h)

/-- One `send_frame` call never decreases the lifetime counters and never
changes the configured qualities or the buffer size. -/
theorem stepClient_counters (c : UDPClient) (e : SendEvent) :
    c.frames_sent ≤ (stepClient c e).frames_sent ∧
    c.bytes_sent ≤ (stepClient c e).bytes_sent ∧
    (stepClient c e).initial_jpeg_quality = c.initial_jpeg_quality := by
  unfold stepClient send_frame
  split
  · exact ⟨Nat.le_refl _, Nat.le_refl _, rfl⟩
  · split
    · exact ⟨Nat.le_refl _, Nat.le_refl _, rfl⟩
    · split
      · exact ⟨Nat.le_succ _, Nat.le_add_right _ _, rfl⟩
      · exact ⟨Nat.le_refl _, Nat.le_refl _, rfl⟩

/-- `runSends` never decreases the counters and never changes the
configured initial quality. -/
theorem runSends_counters (es : List SendEvent) (c : UDPClient) :
    c.frames_sent ≤ (runSends c es).frames_sent ∧
    c.bytes_sent ≤ (runSends c es).bytes_sent ∧
    (runSends c es).initial_jpeg_quality = c.initial_jpeg_quality := by
  induction es generalizing c with
  | nil => exact ⟨Nat.le_refl _, Nat.le_refl _, rfl⟩
  | cons e es ih =>
    have h1 := stepClient_counters c e
    have h2 := ih (stepClient c e)
    exact ⟨Nat.le_trans h1.1 h2.1, Nat.le_trans h1.2.1 h2.2.1,
      h2.2.2.trans h1.2.2⟩

/-- C5: across any sequence of `send_frame` calls the lifetime counters
`frames_sent` and `bytes_sent` never decrease and are never reset, and
one successful send increments `frames_sent` by exactly 1 and
`bytes_sent` by exactly the sent payload's size — independent of any
ring-buffer eviction. -/
theorem counters_monotone_and_exact (c : UDPClient) (es : List SendEvent)
    (comp : Codec) (sendOk : Bool) (origSize : Nat) (elapsed : ℚ) :
    c.frames_sent ≤ (runSends c es).frames_sent ∧
    c.bytes_sent ≤ (runSends c es).bytes_sent ∧
    (∀ d c2, send_frame comp sendOk origSize elapsed c = (SendOutcome.ok d, c2) →
      c2.frames_sent = c.frames_sent + 1 ∧
      c2.bytes_sent = c.bytes_sent + d.length) := by
  refine ⟨(runSends_counters es c).1, (runSends_counters es c).2.1, ?_⟩
  intro d c2 hrun
  unfold send_frame at hrun
  split at hrun
  · rw [Prod.mk.injEq] at hrun
    cases hrun.1
  · split at hrun
    · rw [Prod.mk.injEq] at hrun
      cases hrun.1
    · split at hrun
      · rw [Prod.mk.injEq] at hrun
        obtain ⟨h1, h2⟩ := hrun
        cases h1
        rw [← h2]
        exact ⟨rfl, rfl⟩
      · rw [Prod.mk.injEq] at hrun
        cases hrun.1

/-- C5 witness: on the connected client, one successful send (payload
`[7, 7]`) bumps the counters from `(0, 0)` to `(1, 2)`; the monotonicity
part instantiated at that one-event sequence. -/
theorem counters_monotone_and_exact_witness :
    connClient.frames_sent ≤
      (runSends connClient [⟨fitCodec, true, 1, 0⟩]).frames_sent ∧
    connClient.bytes_sent ≤
      (runSends connClient [⟨fitCodec, true, 1, 0⟩]).bytes_sent ∧
    (∀ d c2, send_frame fitCodec true 1 0 connClient = (SendOutcome.ok d, c2) →
      c2.frames_sent = connClient.frames_sent + 1 ∧
      c2.bytes_sent = connClient.bytes_sent + d.length) :=
  counters_monotone_and_exact connClient
    [⟨fitCodec, true, 1, 0⟩]
    fitCodec true 1 0

/-- C6: the `current_quality` field of any metrics snapshot taken after
any sequence of sends equals the configured `initial_jpeg_quality`: the
per-call quality/scale search of `send_frame` works on locals and never
writes its result back into the configuration. -/
theorem current_quality_reflects_config (c : UDPClient)
    (es : List SendEvent) (m : MetricsSnapshot) :
    (runSends c es).initial_jpeg_quality = c.initial_jpeg_quality ∧
    (get_metrics (runSends c es) = some m →
      m.current_quality = c.initial_jpeg_quality) := by
  refine ⟨(runSends_counters es c).2.2, fun h => ?_⟩
  unfold get_metrics at h
  split at h
  · cases h
  · rw [Option.some_inj] at h
    rw [← h]
    exact (runSends_counters es c).2.2

/-- C6 witness: after one adaptively-degraded send on the connected
client (every compression 20 bytes, buffer 10, so the quality actually
used is far from 60), the snapshot still reports quality 60. -/
theorem current_quality_reflects_config_witness :
    (runSends connClient [⟨oversizedCodec, true, 1, 0⟩]).initial_jpeg_quality =
      connClient.initial_jpeg_quality :=
  (current_quality_reflects_config connClient
    [⟨oversizedCodec, true, 1, 0⟩] ⟨0, 0, 0, 0, 0, 0⟩).1

/-- Folding `deque(maxlen=cap).append` keeps exactly the most recent
`cap` elements: the suffix of the appended stream. -/
theorem foldl_dequeAppend {α : Type} (cap : Nat) (l acc : List α)
    (hacc : acc.length ≤ cap) :
    l.foldl (dequeAppend cap) acc = (acc ++ l).drop ((acc ++ l).length - cap) := by
  induction l generalizing acc with
  | nil =>
    have h0 : acc.length - cap = 0 := by omega
    simp [h0]
  | cons x l ih =>
    have hd : dequeAppend cap acc x = (acc ++ [x]).drop (acc.length + 1 - cap) := by
      simp [dequeAppend]
    have hlen : (dequeAppend cap acc x).length ≤ cap := by
      rw [hd]
      simp
      omega
    rw [List.foldl_cons, ih _ hlen, hd]
    rw [← List.drop_append_of_le_length (by simp)]
    rw [List.drop_drop]
    have hjoin : (acc ++ [x]) ++ l = acc ++ x :: l := by
      simp
    rw [hjoin]
    congr 1
    simp
    omega

/-- The three ring buffers after a run of records are the folds of the
corresponding per-sample projections. -/
theorem runRecords_buffers (ss : List MetricsSample) (c : UDPClient) :
    (runRecords c ss).frame_sizes =
      (ss.map (fun s => s.encodedSize)).foldl (dequeAppend 100) c.frame_sizes ∧
    (runRecords c ss).compression_rates =
      (ss.map MetricsSample.ratio).foldl (dequeAppend 100) c.compression_rates ∧
    (runRecords c ss).frame_times =
      (ss.map MetricsSample.latency).foldl (dequeAppend 100) c.frame_times := by
  induction ss generalizing c with
  | nil => exact ⟨rfl, rfl, rfl⟩
  | cons s ss ih =>
    refine ⟨?_, ?_, ?_⟩ <;>
      simp only [runRecords, List.map_cons, List.foldl_cons]
    · exact (ih (recordSample c s)).1
    · exact (ih (recordSample c s)).2.1
    · exact (ih (recordSample c s)).2.2

/-- From a fresh client, each ring buffer holds exactly the most recent
`min(k, 100)` of the `k` recorded samples, oldest evicted first. -/
theorem runRecords_buffers_drop (buf : Nat) (q0 minQ : Int)
    (ss : List MetricsSample) :
    (runRecords (mkUDPClient buf q0 minQ) ss).frame_sizes =
      (ss.map (fun s => s.encodedSize)).drop (ss.length - 100) ∧
    (runRecords (mkUDPClient buf q0 minQ) ss).compression_rates =
      (ss.map MetricsSample.ratio).drop (ss.length - 100) ∧
    (runRecords (mkUDPClient buf q0 minQ) ss).frame_times =
      (ss.map MetricsSample.latency).drop (ss.length - 100) := by
  have h := runRecords_buffers ss (mkUDPClient buf q0 minQ)
  simp only [mkUDPClient] at h ⊢
  refine ⟨?_, ?_, ?_⟩
  · rw [h.1, foldl_dequeAppend 100 _ [] (by simp)]
    simp
  · rw [h.2.1, foldl_dequeAppend 100 _ [] (by simp)]
    simp
  · rw [h.2.2, foldl_dequeAppend 100 _ [] (by simp)]
    simp

/-- C4: from a fresh client, `get_metrics` returns the empty dict iff no
sample was ever recorded; otherwise its three averages are the exact
arithmetic means over the current ring-buffer contents — the most recent
`min(k, 100)` samples, oldest evicted first. -/
theorem get_metrics_ring_means (buf : Nat) (q0 minQ : Int)
    (ss : List MetricsSample) :
    (get_metrics (runRecords (mkUDPClient buf q0 minQ) ss) = none ↔ ss = []) ∧
    (∀ m, get_metrics (runRecords (mkUDPClient buf q0 minQ) ss) = some m →
      m.avg_frame_size =
        ((ss.drop (ss.length - 100)).map (fun s => (s.encodedSize : ℚ))).sum /
          ((ss.drop (ss.length - 100)).length : ℚ) ∧
      m.avg_compression =
        ((ss.drop (ss.length - 100)).map MetricsSample.ratio).sum /
          ((ss.drop (ss.length - 100)).length : ℚ) ∧
      m.avg_process_time =
        ((ss.drop (ss.length - 100)).map MetricsSample.latency).sum /
          ((ss.drop (ss.length - 100)).length : ℚ)) := by
  obtain ⟨hsz, hrt, htm⟩ := runRecords_buffers_drop buf q0 minQ ss
  have hempty : (runRecords (mkUDPClient buf q0 minQ) ss).frame_times = [] ↔ ss = [] := by
    rw [htm]
    constructor
    · intro h2
      rw [List.drop_eq_nil_iff, List.length_map] at h2
      have h3 : ss.length = 0 := by omega
      exact List.length_eq_zero.mp h3
    · intro h2
      subst h2
      simp
  constructor
  · unfold get_metrics
    split
    case isTrue hit =>
      constructor
      · intro h2
        exact hempty.mp (List.isEmpty_iff.mp hit)
      · intro h2
        rfl
    case isFalse hit =>
      constructor
      · intro h2
        cases h2
      · intro h2
        refine absurd ?_ hit
        rw [List.isEmpty_iff]
        exact hempty.mpr h2
  · intro m hm
    unfold get_metrics at hm
    split at hm
    · cases hm
    · rw [Option.some_inj] at hm
      subst hm
      refine ⟨?_, ?_, ?_⟩
      · show ((runRecords (mkUDPClient buf q0 minQ) ss).frame_sizes.sum : ℚ) / _ = _
        rw [hsz, Nat.cast_list_sum]
        simp [← List.map_drop, List.map_map, Function.comp_def]
      · show (runRecords (mkUDPClient buf q0 minQ) ss).compression_rates.sum / _ = _
        rw [hrt]
        simp [← List.map_drop]
      · show (runRecords (mkUDPClient buf q0 minQ) ss).frame_times.sum / _ = _
        rw [htm]
        simp [← List.map_drop]

/-- C4 witness: recording the two samples `(2, 1, 1)` and `(4, 1/2, 3)`
gives a non-empty snapshot whose frame-size average is the mean `3` of
the two recorded sizes. -/
theorem get_metrics_ring_means_witness :
    ((([⟨2, 1, 1⟩, ⟨4, 1/2, 3⟩] : List MetricsSample).drop
        (([⟨2, 1, 1⟩, ⟨4, 1/2, 3⟩] : List MetricsSample).length - 100)).map
          (fun s => (s.encodedSize : ℚ))).sum /
      ((([⟨2, 1, 1⟩, ⟨4, 1/2, 3⟩] : List MetricsSample).drop
        (([⟨2, 1, 1⟩, ⟨4, 1/2, 3⟩] : List MetricsSample).length - 100)).length : ℚ) = 3 ∧
    (get_metrics (runRecords (mkUDPClient 10 60 30)
      [⟨2, 1, 1⟩, ⟨4, 1/2, 3⟩])).map (fun m => m.avg_frame_size) = some 3 := by
  have hmain := get_metrics_ring_means 10 60 30 [⟨2, 1, 1⟩, ⟨4, 1/2, 3⟩]
  have hsome : get_metrics (runRecords (mkUDPClient 10 60 30)
      [⟨2, 1, 1⟩, ⟨4, 1/2, 3⟩]) =
      some ⟨3, 3/4, 2, 60, 2, 6⟩ := by
    simp [get_metrics, runRecords, recordSample, mkUDPClient, dequeAppend]
    norm_num
  have havg := (hmain.2 ⟨3, 3/4, 2, 60, 2, 6⟩ hsome).1
  constructor
  · exact havg.symm
  · rw [hsome]
    rfl

/-- The arithmetic progression of quality values the inner loop walks:
`qualSeq q n = [q, q - 5, q - 10, …]` of length `n` — each step exactly
the fixed decrement `current_quality -= 5`. -/
def qualSeq (q : Int) : Nat → List Int
  | 0 => []
  | n + 1 => q :: qualSeq (q - 5) n

/-- The number of inner-loop iterations when no compression fits and none
fails: qualities `q, q - 5, …` down to the last one `≥ minQ`. -/
def numQualitySteps (q minQ : Int) : Nat :=
  if q < minQ then 0 else (q - minQ).toNat / 5 + 1

/-- With `minQ ≤ q`, one more full quality step fits above `minQ`. -/
theorem numQualitySteps_succ (q minQ : Int) (h : ¬q < minQ) :
    numQualitySteps q minQ = numQualitySteps (q - 5) minQ + 1 := by
  unfold numQualitySteps
  split <;> split <;> omega

/-- The qualities the inner loop tries always form an initial segment of
the `-5` progression from its starting quality, and all of them are
`≥ minQ` (measure-recursion form). -/
theorem innerLoop_trace_aux (comp : Int → Option Bytes) (buf : Nat)
    (minQ : Int) :
    ∀ (n : Nat) (q : Int), (q + 5 - minQ).toNat ≤ n →
      ∃ m, (innerLoop comp buf minQ q).1 = qualSeq q m ∧
        ∀ x ∈ (innerLoop comp buf minQ q).1, minQ ≤ x := by
  intro n
  induction n with
  | zero =>
    intro q hq
    rw [innerLoop]
    have hlt : q < minQ := by omega
    simp [hlt]
    exact ⟨0, rfl⟩
  | succ n ih =>
    intro q hq
    rw [innerLoop]
    by_cases hlt : q < minQ
    · simp [hlt]
      exact ⟨0, rfl⟩
    · cases hc : comp q with
      | none =>
        simp [hlt, hc]
        exact ⟨⟨1, by simp [qualSeq]⟩, by omega⟩
      | some data =>
        by_cases hfit : data.length ≤ buf
        · simp [hlt, hc, hfit]
          exact ⟨⟨1, by simp [qualSeq]⟩, by omega⟩
        · obtain ⟨m, hm, hmem⟩ := ih (q - 5) (by omega)
          rcases hrec : innerLoop comp buf minQ (q - 5) with ⟨qs, e⟩
          rw [hrec] at hm hmem
          have htail : ∀ x ∈ qs, minQ ≤ x := by
            intro x hx
            exact hmem x hx
          have hcons : ∀ x ∈ q :: qs, minQ ≤ x := by
            intro x hx
            rcases List.mem_cons.mp hx with h1 | h1
            · omega
            · exact htail x h1
          have hqseq : q :: qs = qualSeq q (m + 1) := by
            rw [qualSeq, ← hm]
          cases e <;> simp [hlt, hc, hfit, hrec] <;>
            exact ⟨⟨m + 1, hqseq⟩, by omega, htail⟩

/-- Wrapper of `innerLoop_trace_aux` at the natural measure. -/
theorem innerLoop_trace (comp : Int → Option Bytes) (buf : Nat)
    (minQ q : Int) :
    ∃ m, (innerLoop comp buf minQ q).1 = qualSeq q m ∧
      ∀ x ∈ (innerLoop comp buf minQ q).1, minQ ≤ x :=
  innerLoop_trace_aux comp buf minQ _ q (Nat.le_refl _)

/-- When compression never fails, the inner loop stops only by fitting
the buffer or by walking the full quality progression past `minQ`. -/
theorem innerLoop_full_aux (comp : Int → Option Bytes) (buf : Nat)
    (minQ : Int) (hc : ∀ x, (comp x).isSome) :
    ∀ (n : Nat) (q : Int), (q + 5 - minQ).toNat ≤ n →
      (∃ d, (innerLoop comp buf minQ q).2 = InnerExit.fit d) ∨
        (innerLoop comp buf minQ q).1 = qualSeq q (numQualitySteps q minQ) := by
  intro n
  induction n with
  | zero =>
    intro q hq
    rw [innerLoop]
    have hlt : q < minQ := by omega
    simp [hlt, numQualitySteps, qualSeq]
  | succ n ih =>
    intro q hq
    rw [innerLoop]
    by_cases hlt : q < minQ
    · simp [hlt, numQualitySteps, qualSeq]
    · cases hcq : comp q with
      | none =>
        have := hc q
        rw [hcq] at this
        cases this
      | some data =>
        by_cases hfit : data.length ≤ buf
        · left
          simp [hlt, hcq, hfit]
        · rcases hrec : innerLoop comp buf minQ (q - 5) with ⟨qs, e⟩
          have hih := ih (q - 5) (by omega)
          rw [hrec] at hih
          rw [numQualitySteps_succ q minQ hlt]
          cases e with
          | fit d =>
            left
            simp [hlt, hcq, hfit, hrec]
          | staleSuccess d =>
            right
            rcases hih with ⟨d2, hd2⟩ | htr
            · cases hd2
            · have htr2 : qs = qualSeq (q - 5) (numQualitySteps (q - 5) minQ) := htr
              simp [hlt, hcq, hfit, hrec, qualSeq, htr2]
          | failed =>
            right
            rcases hih with ⟨d2, hd2⟩ | htr
            · cases hd2
            · have htr2 : qs = qualSeq (q - 5) (numQualitySteps (q - 5) minQ) := htr
              simp [hlt, hcq, hfit, hrec, qualSeq, htr2]
          | noIter =>
            right
            rcases hih with ⟨d2, hd2⟩ | htr
            · cases hd2
            · have htr2 : qs = qualSeq (q - 5) (numQualitySteps (q - 5) minQ) := htr
              simp [hlt, hcq, hfit, hrec, qualSeq, htr2]

/-- Every entry of the outer-loop trace is the inner loop run afresh from
the configured starting quality (the `current_quality =
self.initial_jpeg_quality` reset at line 113 precedes every new scale
attempt). -/
theorem outerLoop_trace_aux (comp : Codec) (buf : Nat) (minQ q0 : Int) :
    ∀ (n k : Nat), 6 - k ≤ n →
      ∀ p ∈ (outerLoop comp buf minQ q0 k).1,
        p.2 = (innerLoop (comp p.1) buf minQ q0).1 := by
  intro n
  induction n with
  | zero =>
    intro k hk p hp
    rw [outerLoop] at hp
    have hko : ¬scaleOK k = true := fun hsc => by
      have := scaleOK_lt_six k hsc
      omega
    simp [hko] at hp
  | succ n ih =>
    intro k hk p hp
    rw [outerLoop] at hp
    by_cases hsc : scaleOK k = true
    · have hk6 := scaleOK_lt_six k hsc
      rcases hrec : innerLoop (comp k) buf minQ q0 with ⟨qs, e⟩
      rw [hrec] at hp
      cases e with
      | fit d =>
        simp [hsc] at hp
        subst hp
        simp [hrec]
      | staleSuccess d =>
        simp [hsc] at hp
        subst hp
        simp [hrec]
      | failed =>
        simp [hsc] at hp
        rcases hp with rfl | hmem
        · simp [hrec]
        · exact ih (k + 1) (by omega) p hmem
      | noIter =>
        simp [hsc] at hp
        rcases hp with rfl | hmem
        · simp [hrec]
        · exact ih (k + 1) (by omega) p hmem
    · simp [hsc] at hp

/-- C3: every scale attempt of one `encode` search tries qualities that
start at the configured `initial_jpeg_quality` (reset before each new
scale attempt) and descend by exactly the fixed step 5; every quality
tried is `≥ min_jpeg_quality`; and when compression never fails at that
scale, the attempt stops only because a payload fit or because the
progression walked past `min_jpeg_quality`. -/
theorem encode_quality_trace (comp : Codec) (buf : Nat) (minQ q0 : Int)
    (k : Nat) (qs : List Int)
    (hmem : (k, qs) ∈ (encode comp buf minQ q0).1) :
    (∃ m, qs = qualSeq q0 m) ∧ (∀ x ∈ qs, minQ ≤ x) ∧
    ((∀ x, (comp k x).isSome) →
      (∃ d, (innerLoop (comp k) buf minQ q0).2 = InnerExit.fit d) ∨
        qs = qualSeq q0 (numQualitySteps q0 minQ)) := by
  have hqs : qs = (innerLoop (comp k) buf minQ q0).1 :=
    outerLoop_trace_aux comp buf minQ q0 6 0 (by omega) (k, qs) hmem
  obtain ⟨m, hm, hmemq⟩ := innerLoop_trace (comp k) buf minQ q0
  refine ⟨⟨m, by rw [hqs, hm]⟩, ?_, ?_⟩
  · intro x hx
    rw [hqs] at hx
    exact hmemq x hx
  · intro hc
    rcases innerLoop_full_aux (comp k) buf minQ hc _ q0 (Nat.le_refl _) with
      hfit | hfull
    · exact Or.inl hfit
    · exact Or.inr (by rw [hqs, hfull])

/-- C3 witness: with a codec whose first attempt fits, the trace is the
single attempt `(0, [60])` — one quality tried, starting at the
configured 60, every tried quality `≥ 30`, and the stop caused by a fit. -/
theorem encode_quality_trace_witness :
    (∃ m, [(60 : Int)] = qualSeq 60 m) ∧ (∀ x ∈ [(60 : Int)], (30 : Int) ≤ x) ∧
    ((∀ x, (fitCodec 0 x).isSome) →
      (∃ d, (innerLoop (fitCodec 0) 10 30 60).2 = InnerExit.fit d) ∨
        [(60 : Int)] = qualSeq 60 (numQualitySteps 60 30)) :=
  encode_quality_trace fitCodec 10 30 60 0 [60]
    (by simp [encode, outerLoop, innerLoop, scaleOK, fitCodec])

/-- C1 (bug demonstration): on the connected client with
`buffer_size = 10` and the codec that always succeeds with 20-byte
payloads, `send_frame` hands `sendto` the 20-byte payload — twice the
configured ceiling — and returns success, instead of returning the
payload-too-large failure: the `success, data = self._compress_frame(...)`
unpacking at line 95 overwrites the loop flag, so exhausting the quality
range with only oversized payloads still exits the outer loop as a
success and sends the stale oversized `data`. -/
theorem send_frame_oversized_payload_bug :
    handedToTransport (send_frame oversizedCodec true 1 0 connClient).1 =
      some (List.replicate 20 0) ∧
    connClient.buffer_size < (List.replicate 20 (0 : Nat)).length := by
  constructor
  · simp [send_frame, connClient, mkUDPClient, encode, outerLoop, innerLoop,
      scaleOK, oversizedCodec, handedToTransport]
  · simp [connClient, mkUDPClient]

/-- C2 (bug demonstration): with `buffer_size = 12` and every compressed
payload 20 bytes — so every quality from 60 down to 30 at every scale
exceeds the ceiling, the claim's premise — `send_frame` does not return
the payload-too-large failure and a datagram is sent: the search never
reaches the downscale branch (reachable only when compression itself
fails), because the first inner-loop exhaustion leaves `success == True`
and breaks the outer loop at scale 1.0 with the oversized payload. -/
theorem send_frame_no_payloadTooLarge_bug :
    (∀ k q d, oversizedCodecB k q = some d →
      connClientB.buffer_size < d.length) ∧
    (send_frame oversizedCodecB true 1 0 connClientB).1 =
      SendOutcome.ok (List.replicate 20 1) := by
  constructor
  · intro k q d hd
    rw [oversizedCodecB] at hd
    rw [Option.some_inj] at hd
    subst hd
    simp [connClientB, mkUDPClient]
  · simp [send_frame, connClientB, mkUDPClient, encode, outerLoop, innerLoop,
      scaleOK, oversizedCodecB]

end RoboflowUDP
